import Mathlib

/-!
A shallow embedding of `src/experimental/collections/storage.rs` from the
macroquad repository: a process-local, type-indexed storage registry.

The Rust code keeps a thread-local `HashMap<TypeId, Box<dyn Any>>`; every
entry placed by `store::<T>` is a `Box<Rc<RefCell<T>>>`.  We model:

* `TypeId` as `Nat` (an opaque key; distinct types get distinct keys);
* the heap of `Rc<RefCell<T>>` cells explicitly, as an association list
  from cell identifiers to `Cell` records.  The guards returned by
  `try_get`/`try_get_mut` are `RefCell` `Ref`/`RefMut` values obtained by
  auto-deref through the `Rc`: they hold no `Rc` share, so the registry's
  boxed `Rc` is the only strong reference to a cell.  Consequently the
  `HashMap::insert` inside `store` drops the overwritten cell for good:
  its value is destructed and its allocation freed even if a guard is
  still live.  We model the free by erasing the cell's heap binding; a
  guard on a freed cell has nothing left to read (`readGuard` returns
  `none`), which is how this embedding renders the use-after-free that an
  overwrite-under-guard creates in the source;
* a `Cell` carries its dynamic type tag `ty` (what `downcast_ref` checks),
  its `value`, and the `RefCell` borrow flag `borrow : Int` with the
  standard meaning: `0` = unborrowed, `n > 0` = `n` shared borrows,
  `-1` = exclusively borrowed (`RefCell::borrow` succeeds iff the flag is
  nonnegative and increments it; `RefCell::borrow_mut` succeeds iff the
  flag is zero and sets it to `-1`; panics are modelled as the `fatal`
  result);
* a guard is the identifier of the cell it holds; dereferencing a guard
  reads that cell's value, dropping it undoes its borrow.

Operations `store`, `get`, `try_get`, `get_mut`, `try_get_mut` follow the
source line by line; `releaseShared`/`releaseMut`/`writeGuard` model the
guard's `Drop` and `DerefMut` behaviour.  An action list (`Act`) and an
executor (`exec`) describe every interaction a caller can have with the
registry, for the reachability-invariant claims.
-/

namespace StorageRs

/-- Association-list lookup, first match wins; models `HashMap::get`. -/
def lookupA {α : Type} (k : Nat) : List (Nat × α) → Option α
  | [] => none
  | (k', v) :: rest => if k = k' then some v else lookupA k rest

/-- Removal of every binding of a key; models dropping a map entry (or
freeing a heap cell). -/
def mapErase {α : Type} (k : Nat) (m : List (Nat × α)) : List (Nat × α) :=
  m.filter (fun p => p.1 != k)

/-- Insertion that replaces any previous binding of the key, exactly as
`HashMap::insert` does. -/
def mapInsert {α : Type} (k : Nat) (v : α) (m : List (Nat × α)) : List (Nat × α) :=
  (k, v) :: mapErase k m

/-- One `Rc<RefCell<T>>` cell: the dynamic type tag `ty` (the `T` of the
`store::<T>` that created it, checked by `downcast_ref`), the stored
value, and the `RefCell` borrow flag. -/
structure Cell (Val : Type) where
  ty : Nat
  value : Val
  borrow : Int
deriving DecidableEq

/-- The whole storage state: the thread-local registry map from `TypeId`
to the identifier of its current cell, the heap of the live cells (a
cell is freed — erased from the heap — when the registry's `Rc`, its
only strong reference, is dropped by an overwriting `store`), and a
fresh-identifier counter. -/
structure Storage (Val : Type) where
  registry : List (Nat × Nat)
  cells : List (Nat × Cell Val)
  nextCell : Nat
deriving DecidableEq

/-- The storage of a fresh execution context: lazily created empty map. -/
def initStorage {Val : Type} : Storage Val := ⟨[], [], 0⟩

/-- Result of a lookup operation: `absent` models returning `None`,
`fatal` models a panic (`unwrap` on `None`, or `RefCell` borrow
violation), `ok g s` models returning a guard `g` with the updated
borrow state `s`. -/
inductive GetResult (Val : Type) where
  | absent
  | fatal
  | ok (guard : Nat) (s : Storage Val)
deriving DecidableEq

/-- `store<T: Any>(data: T)`: wrap the value in a fresh
`Rc<RefCell<T>>` cell and insert it at `TypeId::of::<T>`.
`HashMap::insert` drops the previous boxed `Rc`, which is the only
strong reference to the previous cell (guards hold none), so the
previous cell is destructed and freed: its heap binding is erased. -/
def store {Val : Type} (T : Nat) (v : Val) (s : Storage Val) : Storage Val :=
  { registry := mapInsert T s.nextCell s.registry
    cells :=
      match lookupA T s.registry with
      | some old => mapInsert s.nextCell ⟨T, v, 0⟩ (mapErase old s.cells)
      | none => mapInsert s.nextCell ⟨T, v, 0⟩ s.cells
    nextCell := s.nextCell + 1 }

/-- `try_get<T: Any>() -> Option<impl Deref<Target = T>>`: look up
`TypeId::of::<T>`; if absent return `None`; `downcast_ref` the entry to
`Rc<RefCell<T>>` (returning `None` on a tag mismatch, per `and_then` /
`map`); then `RefCell::borrow`, which panics (`fatal`) if the cell is
exclusively borrowed and otherwise increments the shared count. -/
def try_get {Val : Type} (T : Nat) (s : Storage Val) : GetResult Val :=
  match lookupA T s.registry with
  | none => .absent
  | some cid =>
    match lookupA cid s.cells with
    | none => .absent
    | some c =>
      if c.ty = T then
        if 0 ≤ c.borrow then
          .ok cid { s with cells := mapInsert cid { c with borrow := c.borrow + 1 } s.cells }
        else .fatal
      else .absent

/-- `get<T: Any>() -> impl Deref<Target = T>`: `try_get::<T>().unwrap()`;
the `unwrap` turns absence into a panic. -/
def get {Val : Type} (T : Nat) (s : Storage Val) : GetResult Val :=
  match try_get T s with
  | .absent => .fatal
  | r => r

/-- `try_get_mut<T: Any>() -> Option<impl DerefMut<Target = T>>`: same
lookup and downcast as `try_get`, then `RefCell::borrow_mut`, which
panics (`fatal`) unless the cell is unborrowed, and otherwise marks it
exclusively borrowed. -/
def try_get_mut {Val : Type} (T : Nat) (s : Storage Val) : GetResult Val :=
  match lookupA T s.registry with
  | none => .absent
  | some cid =>
    match lookupA cid s.cells with
    | none => .absent
    | some c =>
      if c.ty = T then
        if c.borrow = 0 then
          .ok cid { s with cells := mapInsert cid { c with borrow := -1 } s.cells }
        else .fatal
      else .absent

/-- `get_mut<T: Any>() -> impl DerefMut<Target = T>`:
`try_get_mut::<T>().unwrap()`. -/
def get_mut {Val : Type} (T : Nat) (s : Storage Val) : GetResult Val :=
  match try_get_mut T s with
  | .absent => .fatal
  | r => r

/-- Dereferencing a guard: read the value of the cell it holds. -/
def readGuard {Val : Type} (g : Nat) (s : Storage Val) : Option Val :=
  (lookupA g s.cells).map (fun c => c.value)

/-- Writing through an exclusive guard (`DerefMut`): replace the held
cell's value.  Only an exclusively borrowed cell can be written (a
caller can only write while holding the `RefMut` guard). -/
def writeGuard {Val : Type} (g : Nat) (v : Val) (s : Storage Val) : Storage Val :=
  match lookupA g s.cells with
  | some c =>
    if c.borrow = -1 then
      { s with cells := mapInsert g { c with value := v } s.cells }
    else s
  | none => s

/-- Dropping a shared guard (`Ref::drop`): decrement the cell's shared
count.  Only applies to a cell with an outstanding shared borrow (a
caller can only drop a guard it holds). -/
def releaseShared {Val : Type} (g : Nat) (s : Storage Val) : Storage Val :=
  match lookupA g s.cells with
  | some c =>
    if 0 < c.borrow then
      { s with cells := mapInsert g { c with borrow := c.borrow - 1 } s.cells }
    else s
  | none => s

/-- Dropping an exclusive guard (`RefMut::drop`): return the cell to the
unborrowed state.  Only applies to an exclusively borrowed cell. -/
def releaseMut {Val : Type} (g : Nat) (s : Storage Val) : Storage Val :=
  match lookupA g s.cells with
  | some c =>
    if c.borrow = -1 then
      { s with cells := mapInsert g { c with borrow := 0 } s.cells }
    else s
  | none => s

/-- Everything a caller can do to the registry: the public operations
plus the guard operations.  A failed acquisition yields a panic in the
source; here it leaves the state unchanged, which is sound for
invariant reasoning (the real program takes no further steps). -/
inductive Act (Val : Type) where
  | store (T : Nat) (v : Val)
  | acqShared (T : Nat)
  | acqMut (T : Nat)
  | relShared (g : Nat)
  | relMut (g : Nat)
  | write (g : Nat) (v : Val)
deriving DecidableEq

/-- One interaction step. -/
def step {Val : Type} (a : Act Val) (s : Storage Val) : Storage Val :=
  match a with
  | .store T v => store T v s
  | .acqShared T =>
    match try_get T s with
    | .ok _ s' => s'
    | _ => s
  | .acqMut T =>
    match try_get_mut T s with
    | .ok _ s' => s'
    | _ => s
  | .relShared g => releaseShared g s
  | .relMut g => releaseMut g s
  | .write g v => writeGuard g v s

/-- Run a list of interaction steps, oldest first. -/
def exec {Val : Type} (as : List (Act Val)) (s : Storage Val) : Storage Val :=
  as.foldl (fun s a => step a s) s

/-- Whether an action list contains a `store` for type key `T`. -/
def storesType {Val : Type} (T : Nat) : List (Act Val) → Bool
  | [] => false
  | .store T' _ :: as => T' == T || storesType T as
  | _ :: as => storesType T as

/-- The dynamic type tag of the cell registered at `cid`, compared with
`T` (Boolean form, so that well-formedness is decidable). -/
def cellTyAt {Val : Type} (cid T : Nat) (s : Storage Val) : Bool :=
  match lookupA cid s.cells with
  | some c => c.ty == T
  | none => false

/-- Well-formedness of a storage state: every registry binding points
below the fresh counter and at a heap cell whose dynamic tag is the
registry key (so `downcast_ref` succeeds), and every heap binding is
below the fresh counter with a legal `RefCell` flag (`≥ -1`). -/
def WF {Val : Type} (s : Storage Val) : Prop :=
  (∀ p ∈ s.registry, p.2 < s.nextCell ∧ cellTyAt p.2 p.1 s = true) ∧
  (∀ q ∈ s.cells, q.1 < s.nextCell ∧ -1 ≤ q.2.borrow)

instance {Val : Type} [DecidableEq Val] (s : Storage Val) : Decidable (WF s) := by
  unfold WF; infer_instance

/-- The spec's borrow state machine states. -/
inductive BorrowState where
  | Unborrowed
  | SharedBorrowed (n : Nat)
  | ExclusiveBorrowed
deriving DecidableEq

/-- Abstraction from the `RefCell` flag to the spec's state machine;
`none` for flags (below `-1`) that correspond to no machine state
(mixed or doubly-exclusive, which must be unreachable). -/
def absBorrow (b : Int) : Option BorrowState :=
  if b = 0 then some .Unborrowed
  else if 0 < b then some (.SharedBorrowed b.toNat)
  else if b = -1 then some .ExclusiveBorrowed
  else none

/-- Every cell of the state is in a legal borrow state of the spec's
machine (not mixed, not doubly exclusive). -/
def validBorrows {Val : Type} (s : Storage Val) : Prop :=
  ∀ q ∈ s.cells, (absBorrow q.2.borrow).isSome = true

/-- Unfolding lemma for lookup on a nonempty list. -/
@[simp] lemma lookupA_cons {α : Type} (k k' : Nat) (v : α) (m : List (Nat × α)) :
    lookupA k ((k', v) :: m) = if k = k' then some v else lookupA k m := rfl

/-- Unfolding lemma for lookup on the empty list. -/
@[simp] lemma lookupA_nil {α : Type} (k : Nat) : lookupA k ([] : List (Nat × α)) = none := rfl

/-- Unfolding lemma for erasure on a nonempty list. -/
lemma mapErase_cons {α : Type} (k k' : Nat) (v : α) (m : List (Nat × α)) :
    mapErase k ((k', v) :: m) =
      if k' = k then mapErase k m else (k', v) :: mapErase k m := by
  simp only [mapErase, List.filter_cons]
  by_cases h : k' = k
  · simp [h]
  · simp [h]

/-- Looking up an erased key finds nothing. -/
lemma lookupA_mapErase_self {α : Type} (k : Nat) :
    ∀ m : List (Nat × α), lookupA k (mapErase k m) = none
  | [] => rfl
  | (k', v') :: m => by
    rw [mapErase_cons]
    by_cases h : k' = k
    · rw [if_pos h]
      exact lookupA_mapErase_self k m
    · rw [if_neg h, lookupA_cons, if_neg (Ne.symm h)]
      exact lookupA_mapErase_self k m

/-- Looking up any other key is unaffected by an erasure. -/
lemma lookupA_mapErase_ne {α : Type} {k k0 : Nat} (h : k ≠ k0) :
    ∀ m : List (Nat × α), lookupA k (mapErase k0 m) = lookupA k m
  | [] => rfl
  | (k', v') :: m => by
    rw [mapErase_cons]
    by_cases hk : k' = k0
    · rw [if_pos hk, lookupA_cons,
        if_neg (show ¬k = k' from fun he => h (he.trans hk))]
      exact lookupA_mapErase_ne h m
    · rw [if_neg hk, lookupA_cons, lookupA_cons]
      by_cases hkk : k = k'
      · rw [if_pos hkk, if_pos hkk]
      · rw [if_neg hkk, if_neg hkk]
        exact lookupA_mapErase_ne h m

/-- A member of an erased list was a member of the original list. -/
lemma mem_of_mem_mapErase {α : Type} {k : Nat} {q : Nat × α} {m : List (Nat × α)}
    (h : q ∈ mapErase k m) : q ∈ m :=
  List.mem_of_mem_filter h

/-- A member of an erased list does not carry the erased key. -/
lemma ne_of_mem_mapErase {α : Type} {k : Nat} {q : Nat × α} {m : List (Nat × α)}
    (h : q ∈ mapErase k m) : q.1 ≠ k := by
  simpa using List.of_mem_filter h

/-- Looking up the key just inserted finds the new binding. -/
@[simp] lemma lookupA_mapInsert_self {α : Type} (k : Nat) (v : α) (m : List (Nat × α)) :
    lookupA k (mapInsert k v m) = some v := by
  simp [mapInsert]

/-- Looking up another key is unaffected by an insertion. -/
lemma lookupA_mapInsert_ne {α : Type} {k k' : Nat} (v : α) (m : List (Nat × α))
    (h : k' ≠ k) : lookupA k' (mapInsert k v m) = lookupA k' m := by
  simp [mapInsert, h, lookupA_mapErase_ne h]

/-- Tag of a result, for comparing observations: `0` = absent,
`1` = fatal, `2` = a guard was produced. -/
def resultTag {Val : Type} : GetResult Val → Nat
  | .absent => 0
  | .fatal => 1
  | .ok _ _ => 2

/-- The value read through the guard of a successful lookup. -/
def readResult {Val : Type} : GetResult Val → Option Val
  | .ok g s => readGuard g s
  | _ => none

/-- Whether a result produced a guard. -/
def GetResult.isOk {Val : Type} : GetResult Val → Bool
  | .ok _ _ => true
  | _ => false

/-- `try_get` when the type was never registered: `None`. -/
lemma try_get_reg_none {Val : Type} {T : Nat} {s : Storage Val}
    (h : lookupA T s.registry = none) : try_get T s = .absent := by
  simp [try_get, h]

/-- `try_get` on a registered cell of matching tag without an exclusive
borrow: a guard on that cell, with its shared count bumped. -/
lemma try_get_ok_of {Val : Type} {T cid : Nat} {s : Storage Val} {c : Cell Val}
    (hr : lookupA T s.registry = some cid) (hc : lookupA cid s.cells = some c)
    (hty : c.ty = T) (hb : 0 ≤ c.borrow) :
    try_get T s =
      .ok cid { s with cells := mapInsert cid { c with borrow := c.borrow + 1 } s.cells } := by
  simp [try_get, hr, hc, hty, hb]

/-- `try_get` on a registered cell of matching tag that is exclusively
borrowed: a panic. -/
lemma try_get_fatal_of {Val : Type} {T cid : Nat} {s : Storage Val} {c : Cell Val}
    (hr : lookupA T s.registry = some cid) (hc : lookupA cid s.cells = some c)
    (hty : c.ty = T) (hb : c.borrow < 0) : try_get T s = .fatal := by
  simp [try_get, hr, hc, hty, not_le.mpr hb]

/-- Inversion: a successful `try_get` means the registry mapped `T` to
the guard's cell, the tag matched, the cell was not exclusively
borrowed, and only its shared count changed. -/
lemma try_get_eq_ok_iff {Val : Type} {T g : Nat} {s s' : Storage Val} :
    try_get T s = .ok g s' ↔
      ∃ c, lookupA T s.registry = some g ∧ lookupA g s.cells = some c ∧
        c.ty = T ∧ 0 ≤ c.borrow ∧
        s' = { s with cells := mapInsert g { c with borrow := c.borrow + 1 } s.cells } := by
  constructor
  · intro h
    unfold try_get at h
    split at h
    · cases h
    · rename_i cid hr
      split at h
      · cases h
      · rename_i c hc
        split at h
        · split at h
          · rename_i hty hb
            injection h with h1 h2
            subst h1
            exact ⟨c, hr, hc, hty, hb, h2.symm⟩
          · cases h
        · cases h
  · rintro ⟨c, hr, hc, hty, hb, rfl⟩
    exact try_get_ok_of hr hc hty hb

/-- `try_get_mut` when the type was never registered: `None`. -/
lemma try_get_mut_reg_none {Val : Type} {T : Nat} {s : Storage Val}
    (h : lookupA T s.registry = none) : try_get_mut T s = .absent := by
  simp [try_get_mut, h]

/-- `try_get_mut` on a registered, unborrowed cell of matching tag: an
exclusive guard, with the cell marked exclusively borrowed. -/
lemma try_get_mut_ok_of {Val : Type} {T cid : Nat} {s : Storage Val} {c : Cell Val}
    (hr : lookupA T s.registry = some cid) (hc : lookupA cid s.cells = some c)
    (hty : c.ty = T) (hb : c.borrow = 0) :
    try_get_mut T s =
      .ok cid { s with cells := mapInsert cid { c with borrow := -1 } s.cells } := by
  simp [try_get_mut, hr, hc, hty, hb]

/-- `try_get_mut` on a registered cell of matching tag with any
outstanding borrow: a panic. -/
lemma try_get_mut_fatal_of {Val : Type} {T cid : Nat} {s : Storage Val} {c : Cell Val}
    (hr : lookupA T s.registry = some cid) (hc : lookupA cid s.cells = some c)
    (hty : c.ty = T) (hb : c.borrow ≠ 0) : try_get_mut T s = .fatal := by
  simp [try_get_mut, hr, hc, hty, hb]

/-- Inversion: a successful `try_get_mut` means the registry mapped `T`
to the guard's unborrowed cell of matching tag, which became
exclusively borrowed. -/
lemma try_get_mut_eq_ok_iff {Val : Type} {T g : Nat} {s s' : Storage Val} :
    try_get_mut T s = .ok g s' ↔
      ∃ c, lookupA T s.registry = some g ∧ lookupA g s.cells = some c ∧
        c.ty = T ∧ c.borrow = 0 ∧
        s' = { s with cells := mapInsert g { c with borrow := -1 } s.cells } := by
  constructor
  · intro h
    unfold try_get_mut at h
    split at h
    · cases h
    · rename_i cid hr
      split at h
      · cases h
      · rename_i c hc
        split at h
        · split at h
          · rename_i hty hb
            injection h with h1 h2
            subst h1
            exact ⟨c, hr, hc, hty, hb, h2.symm⟩
          · cases h
        · cases h
  · rintro ⟨c, hr, hc, hty, hb, rfl⟩
    exact try_get_mut_ok_of hr hc hty hb

/-- The heap right after a store that overwrites an existing binding:
the overwritten cell is freed (erased) and the fresh cell added. -/
lemma store_cells_of_reg_some {Val : Type} {T old : Nat} {s : Storage Val} (v : Val)
    (h : lookupA T s.registry = some old) :
    (store T v s).cells = mapInsert s.nextCell ⟨T, v, 0⟩ (mapErase old s.cells) := by
  simp [store, h]

/-- The heap right after a first store for a type key: just the fresh
cell added. -/
lemma store_cells_of_reg_none {Val : Type} {T : Nat} {s : Storage Val} (v : Val)
    (h : lookupA T s.registry = none) :
    (store T v s).cells = mapInsert s.nextCell ⟨T, v, 0⟩ s.cells := by
  simp [store, h]

/-- The registry binds the stored type key to the fresh cell right
after a store. -/
lemma lookupA_store_registry_self {Val : Type} (T : Nat) (v : Val) (s : Storage Val) :
    lookupA T (store T v s).registry = some s.nextCell := by
  simp [store, mapInsert]

/-- The fresh cell is in the heap right after a store, unborrowed. -/
lemma lookupA_store_cells_self {Val : Type} (T : Nat) (v : Val) (s : Storage Val) :
    lookupA s.nextCell (store T v s).cells = some ⟨T, v, 0⟩ := by
  cases h : lookupA T s.registry <;> simp [store, h]

/-- The exact result of `try_get` right after a store of the same type
key: a shared guard on the fresh cell. -/
lemma try_get_after_store {Val : Type} (T : Nat) (v : Val) (s : Storage Val) :
    try_get T (store T v s) =
      .ok s.nextCell
        ⟨mapInsert T s.nextCell s.registry,
          mapInsert s.nextCell ⟨T, v, 1⟩ (store T v s).cells,
          s.nextCell + 1⟩ := by
  have h := try_get_ok_of (lookupA_store_registry_self T v s)
    (lookupA_store_cells_self T v s) rfl (by simp)
  simpa [store] using h

/-- The exact result of `try_get_mut` right after a store of the same
type key: an exclusive guard on the fresh cell. -/
lemma try_get_mut_after_store {Val : Type} (T : Nat) (v : Val) (s : Storage Val) :
    try_get_mut T (store T v s) =
      .ok s.nextCell
        ⟨mapInsert T s.nextCell s.registry,
          mapInsert s.nextCell ⟨T, v, -1⟩ (store T v s).cells,
          s.nextCell + 1⟩ := by
  have h := try_get_mut_ok_of (lookupA_store_registry_self T v s)
    (lookupA_store_cells_self T v s) rfl rfl
  simpa [store] using h

/-- `get` right after a store of the same type key succeeds and reads
the stored value. -/
lemma get_after_store {Val : Type} (T : Nat) (v : Val) (s : Storage Val) :
    (get T (store T v s)).isOk = true ∧ readResult (get T (store T v s)) = some v := by
  have h := try_get_after_store T v s
  constructor <;> simp [get, h, GetResult.isOk, readResult, readGuard]

/-- Writing through a live exclusive guard and then dropping the guard
leaves the cell unborrowed with the written value; a subsequent `get`
succeeds and reads it. -/
lemma write_release_get {Val : Type} (T cid : Nat) (c : Cell Val) (v' : Val) (s : Storage Val)
    (hr : lookupA T s.registry = some cid) (hc : lookupA cid s.cells = some c)
    (hty : c.ty = T) (hb : c.borrow = -1) :
    (get T (releaseMut cid (writeGuard cid v' s))).isOk = true ∧
      readResult (get T (releaseMut cid (writeGuard cid v' s))) = some v' := by
  have hw : writeGuard cid v' s =
      { s with cells := mapInsert cid ⟨c.ty, v', c.borrow⟩ s.cells } := by
    simp [writeGuard, hc, hb]
  have hrel : releaseMut cid (writeGuard cid v' s) =
      { s with
        cells := mapInsert cid ⟨c.ty, v', 0⟩ (mapInsert cid ⟨c.ty, v', c.borrow⟩ s.cells) } := by
    rw [hw]
    simp [releaseMut, hb]
  have hok := try_get_ok_of
    (show lookupA T (releaseMut cid (writeGuard cid v' s)).registry = some cid by
      rw [hrel]
      exact hr)
    (show lookupA cid (releaseMut cid (writeGuard cid v' s)).cells =
        some ⟨c.ty, v', 0⟩ by
      rw [hrel]
      exact lookupA_mapInsert_self _ _ _)
    hty (by simp)
  constructor <;> simp [get, hok, GetResult.isOk, readResult, readGuard]

/-- Unfolding lemma: running an empty interaction list. -/
@[simp] lemma exec_nil {Val : Type} (s : Storage Val) : exec ([] : List (Act Val)) s = s := rfl

/-- Unfolding lemma: running one more interaction. -/
lemma exec_cons {Val : Type} (a : Act Val) (as : List (Act Val)) (s : Storage Val) :
    exec (a :: as) s = exec as (step a s) := rfl

/-- A shared acquisition never touches the registry map. -/
lemma registry_step_acqShared {Val : Type} (T : Nat) (s : Storage Val) :
    (step (Act.acqShared T) s).registry = s.registry := by
  rcases h : try_get T s with _ | _ | ⟨g, s'⟩
  · simp [step, h]
  · simp [step, h]
  · obtain ⟨c, _, _, _, _, rfl⟩ := try_get_eq_ok_iff.mp h
    simp [step, h]

/-- An exclusive acquisition never touches the registry map. -/
lemma registry_step_acqMut {Val : Type} (T : Nat) (s : Storage Val) :
    (step (Act.acqMut T) s).registry = s.registry := by
  rcases h : try_get_mut T s with _ | _ | ⟨g, s'⟩
  · simp [step, h]
  · simp [step, h]
  · obtain ⟨c, _, _, _, _, rfl⟩ := try_get_mut_eq_ok_iff.mp h
    simp [step, h]

/-- Dropping a shared guard never touches the registry map. -/
lemma registry_releaseShared {Val : Type} (g : Nat) (s : Storage Val) :
    (releaseShared g s).registry = s.registry := by
  unfold releaseShared
  split
  · split <;> rfl
  · rfl

/-- Dropping an exclusive guard never touches the registry map. -/
lemma registry_releaseMut {Val : Type} (g : Nat) (s : Storage Val) :
    (releaseMut g s).registry = s.registry := by
  unfold releaseMut
  split
  · split <;> rfl
  · rfl

/-- Writing through a guard never touches the registry map. -/
lemma registry_writeGuard {Val : Type} (g : Nat) (v : Val) (s : Storage Val) :
    (writeGuard g v s).registry = s.registry := by
  unfold writeGuard
  split
  · split <;> rfl
  · rfl

/-- A type key is absent from the registry after a run exactly when it
was absent before and no `store` of that type key occurred. -/
lemma lookupA_registry_exec_eq_none {Val : Type} (T : Nat) :
    ∀ (as : List (Act Val)) (s : Storage Val),
      lookupA T (exec as s).registry = none ↔
        (lookupA T s.registry = none ∧ storesType T as = false)
  | [], s => by simp [storesType]
  | a :: as, s => by
    rw [exec_cons, lookupA_registry_exec_eq_none T as (step a s)]
    cases a with
    | store T' v =>
      by_cases h : T = T'
      · subst h
        simp [step, store, mapInsert, storesType]
      · have h' : ¬T' = T := fun hh => h hh.symm
        simp [step, store, mapInsert, storesType, h, h', lookupA_mapErase_ne h]
    | acqShared T' => rw [registry_step_acqShared]; simp [storesType]
    | acqMut T' => rw [registry_step_acqMut]; simp [storesType]
    | relShared g => rw [show step (Act.relShared g) s = releaseShared g s from rfl,
        registry_releaseShared]; simp [storesType]
    | relMut g => rw [show step (Act.relMut g) s = releaseMut g s from rfl,
        registry_releaseMut]; simp [storesType]
    | write g v => rw [show step (Act.write g v) s = writeGuard g v s from rfl,
        registry_writeGuard]; simp [storesType]

/-- C4: for a type key `U` on which no `store::<U>` was ever executed
(in particular, on a fresh registry), `try_get`/`try_get_mut` return
`None` while `get`/`get_mut` panic. -/
theorem never_stored_absent_or_panic {Val : Type} (U : Nat) (as : List (Act Val))
    (h : storesType U as = false) :
    try_get U (exec as initStorage) = .absent ∧
      try_get_mut U (exec as initStorage) = .absent ∧
      get U (exec as initStorage) = .fatal ∧
      get_mut U (exec as initStorage) = .fatal := by
  have hn : lookupA U (exec as initStorage).registry = none := by
    rw [lookupA_registry_exec_eq_none]
    exact ⟨rfl, h⟩
  have h1 := try_get_reg_none hn
  have h2 := try_get_mut_reg_none hn
  exact ⟨h1, h2, by simp [get, h1], by simp [get_mut, h2]⟩

/-- Witness for C4 at a concrete run: a registry that stored type key 1
but never type key 0. -/
theorem never_stored_absent_or_panic_witness :
    try_get 0 (exec [Act.store 1 (5 : Nat)] initStorage) = .absent ∧
      try_get_mut 0 (exec [Act.store 1 (5 : Nat)] initStorage) = .absent ∧
      get 0 (exec [Act.store 1 (5 : Nat)] initStorage) = .fatal ∧
      get_mut 0 (exec [Act.store 1 (5 : Nat)] initStorage) = .fatal :=
  never_stored_absent_or_panic 0 [Act.store 1 (5 : Nat)] (by decide)

/-- C1: for every type `T` and value `v`, `store::<T>(v)` followed by
`get::<T>()` (no interleaved operation on `T`) succeeds and the returned
guard dereferences to exactly `v`. -/
theorem store_then_get_reads_stored {Val : Type} (T : Nat) (v : Val) (s : Storage Val) :
    (get T (store T v s)).isOk = true ∧ readResult (get T (store T v s)) = some v :=
  get_after_store T v s

/-- C2: `store::<T>(v1); store::<T>(v2); get::<T>()` reads `v2`, not
`v1` — the second store silently replaces the slot's cell (`store` is a
total function into states: it never fails and returns no value). -/
theorem store_overwrites_previous {Val : Type} (T : Nat) (v1 v2 : Val) (s : Storage Val) :
    (get T (store T v2 (store T v1 s))).isOk = true ∧
      readResult (get T (store T v2 (store T v1 s))) = some v2 :=
  get_after_store T v2 (store T v1 s)

/-- C3 is refuted by the code: the guards returned by `try_get` are
`RefCell` `Ref`s holding no `Rc` share, and the registry's boxed `Rc`
is the only strong reference to a cell, so the second `store` frees the
overwritten cell while the guard is still live.  The old guard then
dangles — in this embedding there is no stored value left for it to
read, rendering the use-after-free of the source — rather than
continuing to read `v1`; only the fresh `get` reading `v2` holds. -/
theorem old_guard_dangles_after_overwrite {Val : Type} (T : Nat) (v1 v2 : Val)
    (s : Storage Val) :
    ∃ g s2, try_get T (store T v1 s) = .ok g s2 ∧
      readGuard g s2 = some v1 ∧
      readGuard g (store T v2 s2) = none ∧
      (get T (store T v2 s2)).isOk = true ∧
      readResult (get T (store T v2 s2)) = some v2 := by
  refine ⟨s.nextCell,
    ⟨mapInsert T s.nextCell s.registry,
      mapInsert s.nextCell ⟨T, v1, 1⟩ (store T v1 s).cells,
      s.nextCell + 1⟩,
    try_get_after_store T v1 s, by simp [readGuard], ?_,
    (get_after_store T v2 _).1, (get_after_store T v2 _).2⟩
  have hreg2 : lookupA T ((⟨mapInsert T s.nextCell s.registry,
      mapInsert s.nextCell ⟨T, v1, 1⟩ (store T v1 s).cells,
      s.nextCell + 1⟩ : Storage Val)).registry = some s.nextCell :=
    lookupA_mapInsert_self T s.nextCell s.registry
  have hcl2 : (store T v2
      (⟨mapInsert T s.nextCell s.registry,
        mapInsert s.nextCell ⟨T, v1, 1⟩ (store T v1 s).cells,
        s.nextCell + 1⟩ : Storage Val)).cells =
      mapInsert (s.nextCell + 1) ⟨T, v2, 0⟩
        (mapErase s.nextCell
          (mapInsert s.nextCell ⟨T, v1, 1⟩ (store T v1 s).cells)) :=
    store_cells_of_reg_some v2 hreg2
  simp only [readGuard]
  rw [hcl2,
    lookupA_mapInsert_ne _ _ (Nat.ne_of_lt (Nat.lt_succ_self s.nextCell)),
    lookupA_mapErase_self]
  rfl

/-- C8: mutation through an exclusive guard, after the guard is
released, is visible to every later acquisition: `store(v)`, then
`get_mut`, write `v'` through the guard, drop it — a fresh `get` now
reads `v'`. -/
theorem mutation_visible_after_release {Val : Type} (T : Nat) (v v' : Val) (s : Storage Val) :
    ∃ g s2, get_mut T (store T v s) = .ok g s2 ∧
      (get T (releaseMut g (writeGuard g v' s2))).isOk = true ∧
      readResult (get T (releaseMut g (writeGuard g v' s2))) = some v' := by
  refine ⟨s.nextCell,
    ⟨mapInsert T s.nextCell s.registry,
      mapInsert s.nextCell ⟨T, v, -1⟩ (store T v s).cells,
      s.nextCell + 1⟩, ?_, ?_, ?_⟩
  · simp [get_mut, try_get_mut_after_store T v s]
  · exact (write_release_get T s.nextCell ⟨T, v, -1⟩ v'
      ⟨mapInsert T s.nextCell s.registry,
        mapInsert s.nextCell ⟨T, v, -1⟩ (store T v s).cells,
        s.nextCell + 1⟩
      (lookupA_mapInsert_self T s.nextCell s.registry)
      (lookupA_mapInsert_self s.nextCell ⟨T, v, -1⟩ (store T v s).cells)
      rfl rfl).1
  · exact (write_release_get T s.nextCell ⟨T, v, -1⟩ v'
      ⟨mapInsert T s.nextCell s.registry,
        mapInsert s.nextCell ⟨T, v, -1⟩ (store T v s).cells,
        s.nextCell + 1⟩
      (lookupA_mapInsert_self T s.nextCell s.registry)
      (lookupA_mapInsert_self s.nextCell ⟨T, v, -1⟩ (store T v s).cells)
      rfl rfl).2

/-- A successful lookup exhibits a member of the association list. -/
lemma mem_of_lookupA {α : Type} {k : Nat} {v : α} :
    ∀ {m : List (Nat × α)}, lookupA k m = some v → (k, v) ∈ m
  | [], h => by cases h
  | (k', v') :: m, h => by
    rw [lookupA_cons] at h
    by_cases hk : k = k'
    · rw [if_pos hk] at h
      injection h with h
      subst hk
      subst h
      exact List.mem_cons_self _ _
    · rw [if_neg hk] at h
      exact List.mem_cons_of_mem _ (mem_of_lookupA h)

/-- Two cells known to the tag map with distinct tags are distinct
cells: the tag of one heap cell cannot equal two different keys. -/
lemma ty_ne_of_cellTyAt {Val : Type} {s : Storage Val} {k1 k2 T1 T2 : Nat}
    (h1 : cellTyAt k1 T1 s = true) (h2 : cellTyAt k2 T2 s = true) (hT : T1 ≠ T2) :
    k1 ≠ k2 := by
  intro hk
  subst hk
  unfold cellTyAt at h1 h2
  rcases hc : lookupA k1 s.cells with _ | c
  · rw [hc] at h1
    cases h1
  · rw [hc] at h1 h2
    have e1 : c.ty = T1 := by simpa using h1
    have e2 : c.ty = T2 := by simpa using h2
    exact hT (e1.symm.trans e2)

/-- Storing preserves well-formedness: the fresh cell is correctly
tagged and unborrowed; surviving registry bindings (their key differs
from the stored one) still point at their cells, which are neither the
fresh identifier nor the freed cell, by the tag invariant. -/
lemma WF_store {Val : Type} {s : Storage Val} (T : Nat) (v : Val) (hWF : WF s) :
    WF (store T v s) := by
  obtain ⟨h1, h2⟩ := hWF
  have hreg : (store T v s).registry = (T, s.nextCell) :: mapErase T s.registry := rfl
  rcases h0 : lookupA T s.registry with _ | old
  · constructor
    · intro p hp
      rw [hreg] at hp
      rcases List.mem_cons.mp hp with rfl | hp
      · refine ⟨Nat.lt_succ_self _, ?_⟩
        unfold cellTyAt
        simp [lookupA_store_cells_self]
      · obtain ⟨hlt, hta⟩ := h1 p (mem_of_mem_mapErase hp)
        refine ⟨Nat.lt_succ_of_lt hlt, ?_⟩
        unfold cellTyAt at hta ⊢
        rw [store_cells_of_reg_none v h0, lookupA_mapInsert_ne _ _ (Nat.ne_of_lt hlt)]
        exact hta
    · intro q hq
      rw [store_cells_of_reg_none v h0] at hq
      simp only [mapInsert, List.mem_cons] at hq
      rcases hq with rfl | hq
      · exact ⟨Nat.lt_succ_self _, by simp⟩
      · obtain ⟨hlt, hb⟩ := h2 q (mem_of_mem_mapErase hq)
        exact ⟨Nat.lt_succ_of_lt hlt, hb⟩
  · obtain ⟨hoLt, hoTa⟩ := h1 _ (mem_of_lookupA h0)
    constructor
    · intro p hp
      rw [hreg] at hp
      rcases List.mem_cons.mp hp with rfl | hp
      · refine ⟨Nat.lt_succ_self _, ?_⟩
        unfold cellTyAt
        simp [lookupA_store_cells_self]
      · have hp1 : p.1 ≠ T := ne_of_mem_mapErase hp
        obtain ⟨hlt, hta⟩ := h1 p (mem_of_mem_mapErase hp)
        have hne2 : p.2 ≠ old := ty_ne_of_cellTyAt hta hoTa hp1
        refine ⟨Nat.lt_succ_of_lt hlt, ?_⟩
        unfold cellTyAt at hta ⊢
        rw [store_cells_of_reg_some v h0, lookupA_mapInsert_ne _ _ (Nat.ne_of_lt hlt),
          lookupA_mapErase_ne hne2]
        exact hta
    · intro q hq
      rw [store_cells_of_reg_some v h0] at hq
      simp only [mapInsert, List.mem_cons] at hq
      rcases hq with rfl | hq
      · exact ⟨Nat.lt_succ_self _, by simp⟩
      · obtain ⟨hlt, hb⟩ := h2 q (mem_of_mem_mapErase (mem_of_mem_mapErase hq))
        exact ⟨Nat.lt_succ_of_lt hlt, hb⟩

/-- Replacing the cell at an existing heap binding with one of the same
tag and a legal borrow flag preserves well-formedness. -/
lemma WF_updateCell {Val : Type} {s : Storage Val} {cid : Nat} {c : Cell Val} (c' : Cell Val)
    (hWF : WF s) (hc : lookupA cid s.cells = some c) (hty : c'.ty = c.ty)
    (hb : -1 ≤ c'.borrow) :
    WF { s with cells := mapInsert cid c' s.cells } := by
  obtain ⟨h1, h2⟩ := hWF
  constructor
  · intro p hp
    obtain ⟨hlt, hta⟩ := h1 p hp
    refine ⟨hlt, ?_⟩
    unfold cellTyAt at hta ⊢
    by_cases hk : p.2 = cid
    · subst hk
      rw [hc] at hta
      simpa [hty] using hta
    · simpa [lookupA_mapInsert_ne _ _ hk] using hta
  · intro q hq
    simp only [mapInsert, List.mem_cons] at hq
    rcases hq with rfl | hq
    · exact ⟨(h2 _ (mem_of_lookupA hc)).1, hb⟩
    · exact h2 q (mem_of_mem_mapErase hq)

/-- Every single interaction step preserves well-formedness. -/
lemma WF_step {Val : Type} (a : Act Val) {s : Storage Val} (hWF : WF s) : WF (step a s) := by
  cases a with
  | store T v => exact WF_store T v hWF
  | acqShared T =>
    rcases h : try_get T s with _ | _ | ⟨g, s'⟩
    · simpa [step, h] using hWF
    · simpa [step, h] using hWF
    · obtain ⟨c, _, hc, _, hb, rfl⟩ := try_get_eq_ok_iff.mp h
      have := WF_updateCell { c with borrow := c.borrow + 1 } hWF hc rfl (show (-1 : Int) ≤ c.borrow + 1 by omega)
      simpa [step, h] using this
  | acqMut T =>
    rcases h : try_get_mut T s with _ | _ | ⟨g, s'⟩
    · simpa [step, h] using hWF
    · simpa [step, h] using hWF
    · obtain ⟨c, _, hc, _, hb, rfl⟩ := try_get_mut_eq_ok_iff.mp h
      have := WF_updateCell { c with borrow := -1 } hWF hc rfl (show (-1 : Int) ≤ -1 by omega)
      simpa [step, h] using this
  | relShared g =>
    rcases h : lookupA g s.cells with _ | c
    · simpa [step, releaseShared, h] using hWF
    · by_cases hb : 0 < c.borrow
      · have := WF_updateCell { c with borrow := c.borrow - 1 } hWF h rfl (show (-1 : Int) ≤ c.borrow - 1 by omega)
        simpa [step, releaseShared, h, hb] using this
      · simpa [step, releaseShared, h, hb] using hWF
  | relMut g =>
    rcases h : lookupA g s.cells with _ | c
    · simpa [step, releaseMut, h] using hWF
    · by_cases hb : c.borrow = -1
      · have := WF_updateCell { c with borrow := 0 } hWF h rfl (show (-1 : Int) ≤ 0 by omega)
        simpa [step, releaseMut, h, hb] using this
      · simpa [step, releaseMut, h, hb] using hWF
  | write g v =>
    rcases h : lookupA g s.cells with _ | c
    · simpa [step, writeGuard, h] using hWF
    · by_cases hb : c.borrow = -1
      · have hble := (hWF.2 _ (mem_of_lookupA h)).2
        have := WF_updateCell { c with value := v } hWF h rfl hble
        simpa [step, writeGuard, h, hb] using this
      · simpa [step, writeGuard, h, hb] using hWF

/-- A fresh registry is well formed. -/
lemma WF_initStorage {Val : Type} : WF (initStorage : Storage Val) := by
  constructor <;> intro p hp <;> cases hp

/-- Well-formedness is preserved along any run. -/
lemma WF_exec {Val : Type} :
    ∀ (as : List (Act Val)) (s : Storage Val), WF s → WF (exec as s)
  | [], s, h => h
  | a :: as, s, h => by
    rw [exec_cons]
    exact WF_exec as _ (WF_step a h)

/-- Every state reachable from a fresh registry is well formed. -/
lemma WF_exec_init {Val : Type} (as : List (Act Val)) : WF (exec as initStorage) :=
  WF_exec as _ WF_initStorage

/-- A legal `RefCell` flag always abstracts to a state of the spec's
borrow state machine. -/
lemma absBorrow_isSome_of_legal {b : Int} (h : -1 ≤ b) : (absBorrow b).isSome = true := by
  unfold absBorrow
  split_ifs
  · rfl
  · rfl
  · rfl
  · exfalso
    omega

/-- C10: in every reachable state, each registry entry points at a heap
cell whose dynamic tag equals the registry key, so the `downcast_ref`
in `try_get`/`try_get_mut` always succeeds; consequently `try_get::<T>`
returns `None` exactly when no `store::<T>` ever ran, never because of
a type mismatch. -/
theorem registry_entries_always_downcast {Val : Type} (as : List (Act Val)) (T : Nat) :
    (∀ p ∈ (exec as initStorage).registry, cellTyAt p.2 p.1 (exec as initStorage) = true) ∧
      (try_get T (exec as initStorage) = .absent ↔ storesType T as = false) := by
  have hWF := WF_exec_init as
  refine ⟨fun p hp => (hWF.1 p hp).2, ?_, ?_⟩
  · intro habs
    by_contra hst
    rcases hr : lookupA T (exec as initStorage).registry with _ | cid
    · exact hst ((lookupA_registry_exec_eq_none T as initStorage).mp hr).2
    · obtain ⟨-, hta⟩ := hWF.1 _ (mem_of_lookupA hr)
      unfold cellTyAt at hta
      rcases hc : lookupA cid (exec as initStorage).cells with _ | c
      · rw [hc] at hta
        cases hta
      · rw [hc] at hta
        have hty : c.ty = T := by simpa using hta
        by_cases hb : 0 ≤ c.borrow
        · rw [try_get_ok_of hr hc hty hb] at habs
          cases habs
        · rw [try_get_fatal_of hr hc hty (by omega)] at habs
          cases habs
  · intro hst
    exact try_get_reg_none ((lookupA_registry_exec_eq_none T as initStorage).mpr ⟨rfl, hst⟩)

/-- C5: with a value stored for `T`, a borrow conflict always panics
and is never reported as `None`: any outstanding borrow makes
`try_get_mut` fatal, an exclusive borrow makes `try_get` fatal, and
neither `try_` variant can return the empty result while the slot is
occupied. -/
theorem borrow_conflict_fatal_never_none {Val : Type} (T cid : Nat) (c : Cell Val)
    (s : Storage Val) (hr : lookupA T s.registry = some cid)
    (hc : lookupA cid s.cells = some c) (hty : c.ty = T) :
    (c.borrow ≠ 0 → try_get_mut T s = .fatal) ∧
      (c.borrow < 0 → try_get T s = .fatal) ∧
      try_get T s ≠ .absent ∧ try_get_mut T s ≠ .absent := by
  refine ⟨fun hb => try_get_mut_fatal_of hr hc hty hb,
    fun hb => try_get_fatal_of hr hc hty hb, ?_, ?_⟩
  · by_cases hb : 0 ≤ c.borrow
    · rw [try_get_ok_of hr hc hty hb]
      intro h
      cases h
    · rw [try_get_fatal_of hr hc hty (by omega)]
      intro h
      cases h
  · by_cases hb : c.borrow = 0
    · rw [try_get_mut_ok_of hr hc hty hb]
      intro h
      cases h
    · rw [try_get_mut_fatal_of hr hc hty hb]
      intro h
      cases h

/-- Witness for C5 at a concrete state: type key 0 holds value 5 under
an exclusive borrow. -/
theorem borrow_conflict_fatal_never_none_witness :
    ((-1 : Int) ≠ 0 → try_get_mut 0 (⟨[(0, 0)], [(0, ⟨0, 5, -1⟩)], 1⟩ : Storage Nat) = .fatal) ∧
      ((-1 : Int) < 0 → try_get 0 (⟨[(0, 0)], [(0, ⟨0, 5, -1⟩)], 1⟩ : Storage Nat) = .fatal) ∧
      try_get 0 (⟨[(0, 0)], [(0, ⟨0, 5, -1⟩)], 1⟩ : Storage Nat) ≠ .absent ∧
      try_get_mut 0 (⟨[(0, 0)], [(0, ⟨0, 5, -1⟩)], 1⟩ : Storage Nat) ≠ .absent :=
  borrow_conflict_fatal_never_none 0 0 ⟨0, 5, -1⟩ ⟨[(0, 0)], [(0, ⟨0, 5, -1⟩)], 1⟩
    (by decide) (by decide) rfl

/-- C6: while an exclusive guard is live on `T`'s cell, every further
acquisition (shared or exclusive, panicking or `try_` variant) is
fatal; once the exclusive guard is dropped, both kinds of acquisition
succeed again on the same cell; and no reachable state holds a cell
outside the `Unborrowed`/`SharedBorrowed(n)`/`ExclusiveBorrowed`
machine (no mixed or doubly-exclusive flag). -/
theorem exclusive_guard_blocks_all_acquisitions {Val : Type} (T cid : Nat) (c : Cell Val)
    (s : Storage Val) (as : List (Act Val))
    (hr : lookupA T s.registry = some cid) (hc : lookupA cid s.cells = some c)
    (hty : c.ty = T) (hb : c.borrow = -1) :
    try_get T s = .fatal ∧ try_get_mut T s = .fatal ∧
      get T s = .fatal ∧ get_mut T s = .fatal ∧
      (∃ s', try_get T (releaseMut cid s) = .ok cid s' ∧ readGuard cid s' = some c.value) ∧
      (∃ s', try_get_mut T (releaseMut cid s) = .ok cid s' ∧ readGuard cid s' = some c.value) ∧
      validBorrows (exec as initStorage) := by
  have h1 := try_get_fatal_of hr hc hty (by omega)
  have h2 := try_get_mut_fatal_of hr hc hty (by omega)
  have hrel : releaseMut cid s =
      { s with cells := mapInsert cid { c with borrow := 0 } s.cells } := by
    simp [releaseMut, hc, hb]
  have hr' : lookupA T (releaseMut cid s).registry = some cid := by
    rw [hrel]
    exact hr
  have hc' : lookupA cid (releaseMut cid s).cells = some { c with borrow := 0 } := by
    rw [hrel]
    exact lookupA_mapInsert_self cid { c with borrow := 0 } s.cells
  refine ⟨h1, h2, by simp [get, h1], by simp [get_mut, h2], ?_, ?_, ?_⟩
  · exact ⟨_, try_get_ok_of hr' hc' hty (show (0 : Int) ≤ 0 by omega), by simp [readGuard]⟩
  · exact ⟨_, try_get_mut_ok_of hr' hc' hty rfl, by simp [readGuard]⟩
  · exact fun q hq => absBorrow_isSome_of_legal ((WF_exec_init as).2 q hq).2

/-- Witness for C6 at a concrete state: type key 0 holds value 5 under
an exclusive borrow; the run stores at key 0 and takes the exclusive
guard. -/
theorem exclusive_guard_blocks_all_acquisitions_witness :
    try_get 0 (⟨[(0, 0)], [(0, ⟨0, 5, -1⟩)], 1⟩ : Storage Nat) = .fatal ∧
      try_get_mut 0 (⟨[(0, 0)], [(0, ⟨0, 5, -1⟩)], 1⟩ : Storage Nat) = .fatal ∧
      get 0 (⟨[(0, 0)], [(0, ⟨0, 5, -1⟩)], 1⟩ : Storage Nat) = .fatal ∧
      get_mut 0 (⟨[(0, 0)], [(0, ⟨0, 5, -1⟩)], 1⟩ : Storage Nat) = .fatal ∧
      (∃ s', try_get 0 (releaseMut 0 (⟨[(0, 0)], [(0, ⟨0, 5, -1⟩)], 1⟩ : Storage Nat)) =
          .ok 0 s' ∧ readGuard 0 s' = some 5) ∧
      (∃ s', try_get_mut 0 (releaseMut 0 (⟨[(0, 0)], [(0, ⟨0, 5, -1⟩)], 1⟩ : Storage Nat)) =
          .ok 0 s' ∧ readGuard 0 s' = some 5) ∧
      validBorrows (exec [Act.store 0 (5 : Nat), Act.acqMut 0] initStorage) :=
  exclusive_guard_blocks_all_acquisitions 0 0 ⟨0, 5, -1⟩
    ⟨[(0, 0)], [(0, ⟨0, 5, -1⟩)], 1⟩ [Act.store 0 (5 : Nat), Act.acqMut 0]
    (by decide) (by decide) rfl rfl

/-- After `n` successful shared acquisitions the registry binding is
unchanged and the cell's shared count has grown by exactly `n`. -/
lemma shared_repeat_state {Val : Type} (T cid : Nat) :
    ∀ (n : Nat) (s : Storage Val) (c : Cell Val),
      lookupA T s.registry = some cid → lookupA cid s.cells = some c →
      c.ty = T → 0 ≤ c.borrow →
      lookupA T (exec (List.replicate n (Act.acqShared T)) s).registry = some cid ∧
        lookupA cid (exec (List.replicate n (Act.acqShared T)) s).cells =
          some ⟨c.ty, c.value, c.borrow + n⟩
  | 0, s, c, hr, hc, hty, hb => by
    refine ⟨by simpa using hr, ?_⟩
    simpa using hc
  | n + 1, s, c, hr, hc, hty, hb => by
    rw [List.replicate_succ, exec_cons]
    have hstep : step (Act.acqShared T) s =
        { s with cells := mapInsert cid { c with borrow := c.borrow + 1 } s.cells } := by
      simp [step, try_get_ok_of hr hc hty hb]
    rw [hstep]
    obtain ⟨ih1, ih2⟩ := shared_repeat_state T cid n
      { s with cells := mapInsert cid { c with borrow := c.borrow + 1 } s.cells }
      ⟨c.ty, c.value, c.borrow + 1⟩ hr (by simp) hty
      (show (0 : Int) ≤ c.borrow + 1 by omega)
    refine ⟨ih1, ?_⟩
    rw [ih2]
    have harith : c.borrow + 1 + (n : Int) = c.borrow + ((n : Nat) + 1 : Nat) := by
      push_cast
      ring
    simp only [harith]

/-- C7: with a value stored for `T` and no exclusive borrow
outstanding, any number of simultaneous shared guards can be taken:
after `n` successful shared acquisitions, one more `try_get` still
succeeds, returns a guard on the same cell, and reads the same stored
content as every guard before it. -/
theorem shared_guards_unbounded {Val : Type} (T cid : Nat) (c : Cell Val) (s : Storage Val)
    (n : Nat) (hr : lookupA T s.registry = some cid)
    (hc : lookupA cid s.cells = some c) (hty : c.ty = T) (hb : 0 ≤ c.borrow) :
    ∃ s', try_get T (exec (List.replicate n (Act.acqShared T)) s) = .ok cid s' ∧
      readGuard cid s' = some c.value := by
  obtain ⟨hr', hc'⟩ := shared_repeat_state T cid n s c hr hc hty hb
  refine ⟨_, try_get_ok_of hr' hc' hty (show (0 : Int) ≤ c.borrow + (n : Nat) by omega), ?_⟩
  simp [readGuard]

/-- Witness for C7 at a concrete state: three shared guards are already
out on the cell of type key 0 and a fourth acquisition still succeeds
with the same content. -/
theorem shared_guards_unbounded_witness :
    ∃ s', try_get 0 (exec (List.replicate 3 (Act.acqShared 0))
        (⟨[(0, 0)], [(0, ⟨0, 7, 0⟩)], 1⟩ : Storage Nat)) = .ok 0 s' ∧
      readGuard 0 s' = some 7 :=
  shared_guards_unbounded 0 0 ⟨0, 7, 0⟩ ⟨[(0, 0)], [(0, ⟨0, 7, 0⟩)], 1⟩ 3
    (by decide) (by decide) rfl (by decide)

/-- C9: a `store` for type `T` does not change what a lookup of a
distinct type `U` observes (same result kind, same value read through
the guard), and a shared acquisition step neither touches the registry
map nor the tag or value of any heap cell. -/
theorem store_frame_and_reads_pure {Val : Type} (T U T' cid' : Nat) (v : Val)
    (s : Storage Val) (hWF : WF s) (hne : U ≠ T) :
    resultTag (try_get U (store T v s)) = resultTag (try_get U s) ∧
      readResult (try_get U (store T v s)) = readResult (try_get U s) ∧
      (step (Act.acqShared T') s).registry = s.registry ∧
      (lookupA cid' (step (Act.acqShared T') s).cells).map (fun c => (c.ty, c.value)) =
        (lookupA cid' s.cells).map (fun c => (c.ty, c.value)) := by
  have hp4 : (lookupA cid' (step (Act.acqShared T') s).cells).map (fun c => (c.ty, c.value)) =
      (lookupA cid' s.cells).map (fun c => (c.ty, c.value)) := by
    rcases h : try_get T' s with _ | _ | ⟨g, s1⟩
    · simp [step, h]
    · simp [step, h]
    · obtain ⟨c, _, hcg, _, _, rfl⟩ := try_get_eq_ok_iff.mp h
      by_cases hk : cid' = g
      · subst hk
        simp [step, h, hcg]
      · simp [step, h, lookupA_mapInsert_ne _ _ hk]
  have hreg : lookupA U (store T v s).registry = lookupA U s.registry := by
    rw [show (store T v s).registry = mapInsert T s.nextCell s.registry from rfl,
      lookupA_mapInsert_ne _ _ hne]
  have h12 : resultTag (try_get U (store T v s)) = resultTag (try_get U s) ∧
      readResult (try_get U (store T v s)) = readResult (try_get U s) := by
    rcases hu : lookupA U s.registry with _ | cid
    · rw [try_get_reg_none (hreg.trans hu), try_get_reg_none hu]
      exact ⟨rfl, rfl⟩
    · obtain ⟨hlt, hta⟩ := hWF.1 _ (mem_of_lookupA hu)
      have hcell : lookupA cid (store T v s).cells = lookupA cid s.cells := by
        rcases h0 : lookupA T s.registry with _ | old
        · rw [store_cells_of_reg_none v h0, lookupA_mapInsert_ne _ _ (Nat.ne_of_lt hlt)]
        · obtain ⟨-, hto⟩ := hWF.1 _ (mem_of_lookupA h0)
          have hne2 : cid ≠ old := ty_ne_of_cellTyAt hta hto hne
          rw [store_cells_of_reg_some v h0, lookupA_mapInsert_ne _ _ (Nat.ne_of_lt hlt),
            lookupA_mapErase_ne hne2]
      rcases hc : lookupA cid s.cells with _ | c
      · have e1 : try_get U (store T v s) = .absent := by
          simp [try_get, hreg, hu, hcell, hc]
        have e2 : try_get U s = .absent := by
          simp [try_get, hu, hc]
        rw [e1, e2]
        exact ⟨rfl, rfl⟩
      · by_cases hty : c.ty = U
        · by_cases hb : 0 ≤ c.borrow
          · rw [try_get_ok_of (hreg.trans hu) (hcell.trans hc) hty hb,
              try_get_ok_of hu hc hty hb]
            exact ⟨rfl, by simp [readResult, readGuard]⟩
          · rw [try_get_fatal_of (hreg.trans hu) (hcell.trans hc) hty (by omega),
              try_get_fatal_of hu hc hty (by omega)]
            exact ⟨rfl, rfl⟩
        · have e1 : try_get U (store T v s) = .absent := by
            simp [try_get, hreg, hu, hcell, hc, hty]
          have e2 : try_get U s = .absent := by
            simp [try_get, hu, hc, hty]
          rw [e1, e2]
          exact ⟨rfl, rfl⟩
  exact ⟨h12.1, h12.2, registry_step_acqShared T' s, hp4⟩

/-- Witness for C9 at a concrete well-formed state: key 0 holds 3; a
store at key 1 does not disturb key 0, and a shared acquisition at key
0 changes no registry entry, tag, or value. -/
theorem store_frame_and_reads_pure_witness :
    resultTag (try_get 0 (store 1 (9 : Nat) (⟨[(0, 0)], [(0, ⟨0, 3, 0⟩)], 1⟩ : Storage Nat))) =
        resultTag (try_get 0 (⟨[(0, 0)], [(0, ⟨0, 3, 0⟩)], 1⟩ : Storage Nat)) ∧
      readResult (try_get 0 (store 1 (9 : Nat) (⟨[(0, 0)], [(0, ⟨0, 3, 0⟩)], 1⟩ : Storage Nat))) =
        readResult (try_get 0 (⟨[(0, 0)], [(0, ⟨0, 3, 0⟩)], 1⟩ : Storage Nat)) ∧
      (step (Act.acqShared 0) (⟨[(0, 0)], [(0, ⟨0, 3, 0⟩)], 1⟩ : Storage Nat)).registry =
        (⟨[(0, 0)], [(0, ⟨0, 3, 0⟩)], 1⟩ : Storage Nat).registry ∧
      (lookupA 0 (step (Act.acqShared 0)
            (⟨[(0, 0)], [(0, ⟨0, 3, 0⟩)], 1⟩ : Storage Nat)).cells).map
          (fun c => (c.ty, c.value)) =
        (lookupA 0 (⟨[(0, 0)], [(0, ⟨0, 3, 0⟩)], 1⟩ : Storage Nat).cells).map
          (fun c => (c.ty, c.value)) :=
  store_frame_and_reads_pure 1 0 0 0 9 ⟨[(0, 0)], [(0, ⟨0, 3, 0⟩)], 1⟩
    (by decide) (by decide)

end StorageRs
